import Mathlib

/-!
Verification of the component-tree construction engine of
`src/streamsync/ui_manager.py` (the `StreamsyncUI` facade).

The facade methods (`assert_in_container`, `find`, `refresh_with`,
`_prepare_handlers`, `_prepare_binding`, `_create_component`,
`create_component`, `create_container_component`) are embedded from the
source file.  The collaborators imported from `streamsync.core_ui`
(`Component`, the component tree with `get_component`, `attach`,
`clear_children`, `determine_position`, and the ambient
`current_parent_container` context variable) are not part of the source
tree, so they are modelled from the specification; each such definition
carries a doc comment saying so.

Conventions of the embedding:
  - the ambient `current_parent_container` context variable becomes an
    explicit `ctx : Option Component` argument;
  - Python's distinction between "keyword argument not passed" and
    "keyword argument passed as None" becomes the three-state `Passed`
    type;
  - the id generator used when no `id` keyword is supplied becomes an
    explicit `fresh : String` argument;
  - mutation of the tree becomes explicit state passing: operations
    return the new tree, and a raised exception becomes `Except.error`,
    which carries no tree, so an error leaves the caller's tree as it
    was.
-/

namespace Streamsync

/-- Modelled from the spec: a handler value supplied by the caller is
either "a reference to a named function" (a callable, carrying its
declared `__name__`) or a plain handler-name string (§9). -/
inductive RawHandler where
  | callable (name : String) : RawHandler
  | str (s : String) : RawHandler
deriving Repr, DecidableEq

/-- Whether a raw handler value is a callable. -/
def RawHandler.isCallable : RawHandler → Bool
  | .callable _ => true
  | .str _ => false

/-- Modelled from the spec: the opaque binding descriptor is "passed
through unmodified (not interpreted by this core)" (§3); in the source
it is a `dict`, so it is modelled as an association list, empty meaning
falsy. -/
abbrev Binding := List (String × String)

/-- Modelled from the spec (§3, missing `streamsync.core_ui.Component`):
one node of the UI description tree, with id, type tag, parent
reference, ordering key, attribute map, event-handler map and optional
binding descriptor, plus the provenance flag. -/
structure Component where
  id : String
  type : String
  parentId : String
  position : Int
  attributes : List (String × String)
  handlers : Option (List (String × RawHandler))
  binding : Option Binding
  flag : String
deriving Repr, DecidableEq

/-- Modelled from the spec (§3/§4.1, missing
`streamsync.core_ui.SessionComponentTree`): an indexed collection of
components keyed by id.  The dual base/session-overlay structure is
abstracted to its effective, overlay-resolved view, which is the view
every claim below concerns. -/
structure ComponentTree where
  components : List Component
deriving Repr, DecidableEq

/-- Modelled from the spec (§4.1): "lookup with overlay fall-through",
abstracted over the effective tree: the component with the given id,
when present. -/
def ComponentTree.get_component (t : ComponentTree) (cid : String) :
    Option Component :=
  t.components.find? (fun c => c.id == cid)

/-- Modelled from the spec (§4.1): "inserts or replaces the component
under its own id"; "re-attachment for update is permitted". -/
def ComponentTree.attach (t : ComponentTree) (c : Component) : ComponentTree :=
  if t.components.any (fun d => d.id == c.id) then
    ⟨t.components.map (fun d => if d.id == c.id then c else d)⟩
  else
    ⟨t.components ++ [c]⟩

/-- Whether following `parentId` links upward from the component named
`cid` reaches `anc` within the given fuel (the ancestor test used to
compute the descendant set of `clear_children`). -/
def chainReaches (comps : List Component) : Nat → String → String → Bool
  | 0, _, _ => false
  | Nat.succ n, cid, anc =>
    if cid == anc then true
    else
      match comps.find? (fun c => c.id == cid) with
      | some c => chainReaches comps n c.parentId anc
      | none => false

/-- Modelled from the spec (§4.1): `clearChildren(id)` "removes,
recursively, every descendant of the named component (its entire
subtree minus the node itself)".  A component is removed when its
parent chain reaches `cid`; a component whose own id is `cid` is the
node itself and is kept. -/
def ComponentTree.clear_children (t : ComponentTree) (cid : String) :
    ComponentTree :=
  ⟨t.components.filter (fun c =>
    c.id == cid ||
      !(chainReaches t.components (t.components.length + 1) c.parentId cid))⟩

/-- Direct children of the component named `cid` in the tree. -/
def ComponentTree.children (t : ComponentTree) (cid : String) :
    List Component :=
  t.components.filter (fun c => c.parentId == cid)

/-- Modelled from the spec (§4.1): `determinePosition`: positionless
components get the sentinel `-2`; an id already present keeps its
existing position; otherwise `1 + max(position among current siblings
of parentId, or -1 if none)`, with positionless siblings excluded from
the max-computation (§8, "Positionless exclusion"). -/
def ComponentTree.determine_position (t : ComponentTree)
    (cid parentId : String) (isPositionless : Bool) : Int :=
  if isPositionless then -2
  else
    match t.get_component cid with
    | some c => c.position
    | none =>
      1 + ((t.components.filter
              (fun c => c.parentId == parentId && c.position != -2)).foldr
            (fun c m => max c.position m) (-1))

/-- Errors surfaced by the facade.  `notInContainer` is the spec's
`NotInContainerError` (the `UIError` the source raises in
`assert_in_container`); `componentNotFound` is the spec's
`ComponentNotFoundError` (the `RuntimeError` the source raises in
`find`). -/
inductive UIError where
  | notInContainer : UIError
  | componentNotFound (cid : String) : UIError
deriving Repr, DecidableEq

/-- Embeds `StreamsyncUI.assert_in_container`: reads the ambient
container context (here the explicit `ctx`) and errors when it holds
nothing. -/
def assert_in_container (ctx : Option Component) : Except UIError Unit :=
  match ctx with
  | none => .error .notInContainer
  | some _ => .ok ()

/-- Embeds `StreamsyncUI.find`: looks the id up in the effective tree
and errors when it is absent. -/
def find (t : ComponentTree) (cid : String) : Except UIError Component :=
  match t.get_component cid with
  | some c => .ok c
  | none => .error (.componentNotFound cid)

/-- Embeds `StreamsyncUI.refresh_with`: finds the component (erroring
when absent, before any mutation), clears its children, and returns the
component together with the cleared tree. -/
def refresh_with (t : ComponentTree) (cid : String) :
    Except UIError (Component × ComponentTree) :=
  match find t cid with
  | .error e => .error e
  | .ok c => .ok (c, t.clear_children cid)

/-- Embeds `StreamsyncUI._prepare_handlers` on one entry: a callable is
reduced to its declared name, any other value is kept as given. -/
def reduceHandler : RawHandler → RawHandler
  | .callable n => .str n
  | .str s => .str s

/-- Embeds `StreamsyncUI._prepare_handlers`: the loop over the supplied
mapping is a map of `reduceHandler` over the entries (a `None` mapping
and an absent one both yield the empty mapping, so both are the empty
list here). -/
def prepare_handlers (raw : List (String × RawHandler)) :
    List (String × RawHandler) :=
  raw.map (fun p => (p.1, reduceHandler p.2))

/-- Embeds `StreamsyncUI._prepare_binding`: the identity. -/
def prepare_binding (raw : Binding) : Binding := raw

/-- A Python keyword argument that may be not passed at all (`unset`),
passed explicitly as `None` (`null`), or passed with a value. -/
inductive Passed (α : Type) where
  | unset : Passed α
  | null : Passed α
  | val (a : α) : Passed α
deriving Repr, DecidableEq

/-- Embeds the `if kwargs.get(k, False) is None: kwargs.pop(k)`
stripping in `_create_component`: an explicitly-`None` argument becomes
a not-passed one. -/
def stripNull {α : Type} : Passed α → Passed α
  | .null => .unset
  | p => p

/-- The keyword arguments of a creation call.  `handlers` passed as
`None` and not passed both reach `_prepare_handlers` as the empty
mapping, so both are the empty list; `binding` keeps the three-way
split collapsed to `Option` since `None` and absent coincide (both
yield an absent stored binding), while a passed dict is `some`. -/
structure CreateArgs where
  id : Passed String := .unset
  position : Passed Int := .unset
  parentId : Passed String := .unset
  positionless : Bool := false
  handlers : List (String × RawHandler) := []
  binding : Option Binding := none
  attributes : List (String × String) := []
deriving Repr, DecidableEq

/-- Embeds `StreamsyncUI._create_component`: strips `None`-valued `id`,
`position` and `parentId`; resolves the parent (explicit override,
else current container, else `"root"`); prepares handlers and binding
(falsy results stored as absent, the `or None` in the source);
constructs the component (an unsupplied id becomes the generated
`fresh`); computes the position (`position if position is not None else
determine_position(...)`); and attaches the component to the tree as
the single mutation. -/
def _create_component (t : ComponentTree) (ctx : Option Component)
    (fresh : String) (component_type : String) (args : CreateArgs) :
    Component × ComponentTree :=
  let idArg := stripNull args.id
  let posArg := stripNull args.position
  let pidArg := stripNull args.parentId
  let parent_id :=
    match pidArg with
    | .val p => p
    | _ =>
      match ctx with
      | none => "root"
      | some pc => pc.id
  let handlers := prepare_handlers args.handlers
  let handlersOpt := if handlers.isEmpty then none else some handlers
  let raw_binding := args.binding.getD []
  let bindingOpt :=
    if (prepare_binding raw_binding).isEmpty then none
    else some (prepare_binding raw_binding)
  let cid :=
    match idArg with
    | .val s => s
    | _ => fresh
  let pos :=
    match posArg with
    | .val p => p
    | _ => t.determine_position cid parent_id args.positionless
  let c : Component :=
    { id := cid, type := component_type, parentId := parent_id,
      position := pos, attributes := args.attributes,
      handlers := handlersOpt, binding := bindingOpt, flag := "cmc" }
  (c, t.attach c)

/-- Embeds `StreamsyncUI.create_component`: asserts the container
precondition first, then delegates to the shared creation routine. -/
def create_component (t : ComponentTree) (ctx : Option Component)
    (fresh : String) (component_type : String) (args : CreateArgs) :
    Except UIError (Component × ComponentTree) :=
  match assert_in_container ctx with
  | .error e => .error e
  | .ok _ => .ok (_create_component t ctx fresh component_type args)

/-- Embeds `StreamsyncUI.create_container_component`: delegates to the
shared creation routine without any container assertion, so it never
errors. -/
def create_container_component (t : ComponentTree) (ctx : Option Component)
    (fresh : String) (component_type : String) (args : CreateArgs) :
    Except UIError (Component × ComponentTree) :=
  .ok (_create_component t ctx fresh component_type args)

/-- A concrete section component used by concrete evaluations. -/
def compA : Component :=
  { id := "a", type := "sec", parentId := "root", position := 0,
    attributes := [], handlers := none, binding := none, flag := "cmc" }

/-- A concrete section component nested under `compA`. -/
def compB : Component :=
  { id := "b", type := "sec", parentId := "a", position := 0,
    attributes := [], handlers := none, binding := none, flag := "cmc" }

/-- A concrete text component nested under `compB`. -/
def compC : Component :=
  { id := "c", type := "txt", parentId := "b", position := 0,
    attributes := [], handlers := none, binding := none, flag := "cmc" }

/-- A concrete tree holding a two-level chain of descendants under
`compA`. -/
def treeABC : ComponentTree := ⟨[compA, compB, compC]⟩

/-- A concrete tree with two positioned children of `"root"` (positions
0 and 1) and one positionless child. -/
def posTree : ComponentTree := ⟨[
  { id := "p0", type := "txt", parentId := "root", position := 0,
    attributes := [], handlers := none, binding := none, flag := "cmc" },
  { id := "p1", type := "txt", parentId := "root", position := 1,
    attributes := [], handlers := none, binding := none, flag := "cmc" },
  { id := "pl", type := "html", parentId := "root", position := -2,
    attributes := [], handlers := none, binding := none, flag := "cmc" }]⟩

/-- C1: with no container held by the scoped context, `create_component`
fails with the not-in-container error before any component is
constructed or attached, while `create_container_component` succeeds
(it never consults the in-container assertion). -/
theorem leaf_requires_container (t : ComponentTree) (fresh ty : String)
    (args : CreateArgs) :
    create_component t none fresh ty args = .error UIError.notInContainer ∧
    create_container_component t none fresh ty args =
      .ok (_create_component t none fresh ty args) :=
  ⟨rfl, rfl⟩

/-- C2: the created component's `parentId` is resolved with the
precedence: an explicitly passed non-`None` `parentId` wins; otherwise
the id of the container held by the scoped context; otherwise `"root"`
when no container context is open. -/
theorem parentId_resolution (t : ComponentTree) (ctx : Option Component)
    (fresh ty : String) (args : CreateArgs) :
    (∀ p, args.parentId = Passed.val p →
      (_create_component t ctx fresh ty args).1.parentId = p) ∧
    (stripNull args.parentId = Passed.unset →
      ∀ pc, ctx = some pc →
        (_create_component t ctx fresh ty args).1.parentId = pc.id) ∧
    (stripNull args.parentId = Passed.unset → ctx = none →
      (_create_component t ctx fresh ty args).1.parentId = "root") := by
  refine ⟨?_, ?_, ?_⟩
  · intro p hp
    rcases args with ⟨aid, apos, apid, apl, ah, ab, aat⟩
    cases hp
    rfl
  · intro hs pc hc
    subst hc
    rcases args with ⟨aid, apos, apid, apl, ah, ab, aat⟩
    cases apid with
    | unset => rfl
    | null => rfl
    | val a => simp [stripNull] at hs
  · intro hs hc
    subst hc
    rcases args with ⟨aid, apos, apid, apl, ah, ab, aat⟩
    cases apid with
    | unset => rfl
    | null => rfl
    | val a => simp [stripNull] at hs

/-- C2 witness: under an open container context holding `compB`, a leaf
created with no explicit `parentId` gets `compB`'s id as its parent,
and with the context closed it gets `"root"`. -/
theorem parentId_resolution_witness :
    (_create_component treeABC (some compB) "x" "txt" {}).1.parentId = "b" ∧
    (_create_component treeABC none "x" "txt" {}).1.parentId = "root" :=
  ⟨(parentId_resolution treeABC (some compB) "x" "txt" {}).2.1 rfl compB rfl,
   (parentId_resolution treeABC none "x" "txt" {}).2.2 rfl rfl⟩

/-- C5: `find` returns the component with the given id exactly when the
id is present in the effective tree, and fails with the
component-not-found error exactly when the id is absent. -/
theorem find_effective (t : ComponentTree) (cid : String) :
    (∀ c, t.get_component cid = some c ↔ find t cid = .ok c) ∧
    (t.get_component cid = none ↔
      find t cid = .error (UIError.componentNotFound cid)) := by
  constructor
  · intro c
    constructor
    · intro h
      simp [find, h]
    · intro h
      cases hg : t.get_component cid with
      | none => simp [find, hg] at h
      | some d =>
        simp only [find, hg] at h ⊢
        rw [Except.ok.inj h]
  · constructor
    · intro h
      simp [find, h]
    · intro h
      cases hg : t.get_component cid with
      | none => rfl
      | some d => simp [find, hg] at h

/-- C5 witness: in the concrete tree, `"b"` is found and a missing id
fails with the component-not-found error. -/
theorem find_effective_witness :
    find treeABC "b" = .ok compB ∧
    find treeABC "zzz" = .error (UIError.componentNotFound "zzz") :=
  ⟨((find_effective treeABC "b").1 compB).mp (by decide),
   (find_effective treeABC "zzz").2.mp (by decide)⟩

/-- C8: each of `id`, `position` and `parentId` explicitly passed as
`None` is stripped before construction and behaves exactly as if it had
not been passed at all. -/
theorem none_valued_fields_stripped (t : ComponentTree)
    (ctx : Option Component) (fresh ty : String) (args : CreateArgs) :
    (_create_component t ctx fresh ty { args with id := Passed.null } =
      _create_component t ctx fresh ty { args with id := Passed.unset }) ∧
    (_create_component t ctx fresh ty { args with position := Passed.null } =
      _create_component t ctx fresh ty { args with position := Passed.unset }) ∧
    (_create_component t ctx fresh ty { args with parentId := Passed.null } =
      _create_component t ctx fresh ty { args with parentId := Passed.unset }) :=
  ⟨rfl, rfl, rfl⟩

/-- C10: an explicitly passed non-`None` `position` is stored exactly as
passed; the position-computation routine is bypassed, so neither the
positionless flag nor siblings nor a pre-existing component with the
same id affects it. -/
theorem explicit_position_wins (t : ComponentTree) (ctx : Option Component)
    (fresh ty : String) (args : CreateArgs) (p : Int)
    (h : args.position = Passed.val p) :
    (_create_component t ctx fresh ty args).1.position = p := by
  rcases args with ⟨aid, apos, apid, apl, ah, ab, aat⟩
  cases h
  rfl

/-- C10 witness: an explicit position 7 is stored even though the
positionless flag is set and the id `"b"` already exists at position 0
with positioned siblings present. -/
theorem explicit_position_wins_witness :
    (_create_component treeABC (some compA) "x" "txt"
      { id := Passed.val "b", position := Passed.val 7,
        positionless := true }).1.position = 7 :=
  explicit_position_wins treeABC (some compA) "x" "txt"
    { id := Passed.val "b", position := Passed.val 7, positionless := true }
    7 rfl

/-- Reducing a raw handler value never yields a callable. -/
theorem reduceHandler_not_callable (h : RawHandler) :
    (reduceHandler h).isCallable = false := by
  cases h <;> rfl

/-- C6: a callable handler value is stored under its declared name, a
non-callable value is stored as given, and a component's stored
handlers mapping never contains a callable. -/
theorem handlers_name_reduction (t : ComponentTree) (ctx : Option Component)
    (fresh ty : String) (args : CreateArgs) :
    (∀ e n, (e, RawHandler.callable n) ∈ args.handlers →
      (e, RawHandler.str n) ∈ prepare_handlers args.handlers) ∧
    (∀ e h, (e, h) ∈ args.handlers → h.isCallable = false →
      (e, h) ∈ prepare_handlers args.handlers) ∧
    (∀ l, (_create_component t ctx fresh ty args).1.handlers = some l →
      ∀ p ∈ l, p.2.isCallable = false) := by
  refine ⟨?_, ?_, ?_⟩
  · intro e n hmem
    exact List.mem_map_of_mem (fun p => (p.1, reduceHandler p.2)) hmem
  · intro e h hmem hnc
    have := List.mem_map_of_mem (fun p => (p.1, reduceHandler p.2)) hmem
    cases h with
    | callable n => simp [RawHandler.isCallable] at hnc
    | str s => exact this
  · intro l hl p hp
    rcases args with ⟨aid, apos, apid, apl, ah, ab, aat⟩
    have hdef : (_create_component t ctx fresh ty
        ⟨aid, apos, apid, apl, ah, ab, aat⟩).1.handlers =
        if (prepare_handlers ah).isEmpty then none
        else some (prepare_handlers ah) := rfl
    rw [hdef] at hl
    by_cases he : (prepare_handlers ah).isEmpty
    · rw [if_pos he] at hl
      exact absurd hl (by simp)
    · rw [if_neg he] at hl
      have hlp : prepare_handlers ah = l := Option.some.inj hl
      rw [← hlp] at hp
      rcases List.mem_map.mp hp with ⟨q, hq, hqe⟩
      rw [← hqe]
      exact reduceHandler_not_callable q.2

/-- C6 witness: a creation call supplying a callable handler for
`"click"` and a plain name for `"change"` stores the callable's name
and the plain name, and the stored mapping has no callable. -/
theorem handlers_name_reduction_witness :
    ("click", RawHandler.str "do_click") ∈
      prepare_handlers [("click", RawHandler.callable "do_click"),
        ("change", RawHandler.str "on_change")] ∧
    ∀ p ∈ (_create_component treeABC (some compA) "x" "btn"
      { handlers := [("click", RawHandler.callable "do_click"),
        ("change", RawHandler.str "on_change")] }).1.handlers.getD [],
      p.2.isCallable = false := by
  constructor
  · exact (handlers_name_reduction treeABC (some compA) "x" "btn"
      { handlers := [("click", RawHandler.callable "do_click"),
        ("change", RawHandler.str "on_change")] }).1 "click" "do_click"
      (by decide)
  · intro p hp
    exact (handlers_name_reduction treeABC (some compA) "x" "btn"
      { handlers := [("click", RawHandler.callable "do_click"),
        ("change", RawHandler.str "on_change")] }).2.2
      [("click", RawHandler.str "do_click"),
        ("change", RawHandler.str "on_change")] rfl p hp

/-- C7: a creation call either fails before any tree mutation (the
error result carries no tree, and `create_component` errors exactly
when the context holds no container) or fully constructs the component
and attaches it as the single mutation of the tree. -/
theorem creation_atomicity (t : ComponentTree) (ctx : Option Component)
    (fresh ty : String) (args : CreateArgs) :
    (ctx = none →
      create_component t ctx fresh ty args = .error UIError.notInContainer) ∧
    (∀ pc, ctx = some pc →
      create_component t ctx fresh ty args =
        .ok (_create_component t ctx fresh ty args)) ∧
    (create_container_component t ctx fresh ty args =
      .ok (_create_component t ctx fresh ty args)) ∧
    ((_create_component t ctx fresh ty args).2 =
      t.attach (_create_component t ctx fresh ty args).1) := by
  refine ⟨?_, ?_, rfl, ?_⟩
  · intro hc
    subst hc
    rfl
  · intro pc hc
    subst hc
    rfl
  · rcases args with ⟨aid, apos, apid, apl, ah, ab, aat⟩
    rfl

/-- C7 witness: with no container context the leaf creation errors, and
with `compA` as the context the call succeeds with the new tree being
exactly the original tree with the created component attached. -/
theorem creation_atomicity_witness :
    create_component treeABC none "x" "txt" {} =
      .error UIError.notInContainer ∧
    create_component treeABC (some compA) "x" "txt" {} =
      .ok (_create_component treeABC (some compA) "x" "txt" {}) ∧
    (_create_component treeABC (some compA) "x" "txt" {}).2 =
      treeABC.attach (_create_component treeABC (some compA) "x" "txt" {}).1 :=
  ⟨(creation_atomicity treeABC none "x" "txt" {}).1 rfl,
   (creation_atomicity treeABC (some compA) "x" "txt" {}).2.1 compA rfl,
   (creation_atomicity treeABC (some compA) "x" "txt" {}).2.2.2⟩

/-- C9 counterexample: a creation call that explicitly supplies the
empty binding descriptor does not store it unmodified: the stored
binding is absent (`none`), not the supplied empty descriptor. -/
theorem binding_passthrough_cex :
    (_create_component ⟨[]⟩ none "c1" "btn"
      { binding := some [] }).1.binding = none ∧
    some ([] : Binding) ≠ (none : Option Binding) :=
  ⟨rfl, by simp⟩

/-- C9 amended: a supplied non-empty binding descriptor is stored on
the created component unmodified; a supplied empty (falsy) descriptor,
like an absent one, is normalized to an absent binding. -/
theorem binding_passthrough (t : ComponentTree) (ctx : Option Component)
    (fresh ty : String) (args : CreateArgs) :
    (∀ b, args.binding = some b → b ≠ [] →
      (_create_component t ctx fresh ty args).1.binding = some b) ∧
    (args.binding = none →
      (_create_component t ctx fresh ty args).1.binding = none) ∧
    (args.binding = some [] →
      (_create_component t ctx fresh ty args).1.binding = none) := by
  refine ⟨?_, ?_, ?_⟩
  · intro b hb hne
    rcases args with ⟨aid, apos, apid, apl, ah, ab, aat⟩
    cases hb
    cases b with
    | nil => exact absurd rfl hne
    | cons x xs => rfl
  · intro hb
    rcases args with ⟨aid, apos, apid, apl, ah, ab, aat⟩
    cases hb
    rfl
  · intro hb
    rcases args with ⟨aid, apos, apid, apl, ah, ab, aat⟩
    cases hb
    rfl

/-- C9 amended witness: a non-empty binding descriptor is stored
unmodified, and an absent one stays absent. -/
theorem binding_passthrough_witness :
    (_create_component ⟨[]⟩ none "c1" "btn"
      { binding := some [("k", "v")] }).1.binding = some [("k", "v")] ∧
    (_create_component ⟨[]⟩ none "c1" "btn" {}).1.binding = none :=
  ⟨(binding_passthrough ⟨[]⟩ none "c1" "btn"
      { binding := some [("k", "v")] }).1 [("k", "v")] rfl (by simp),
   (binding_passthrough ⟨[]⟩ none "c1" "btn" {}).2.1 rfl⟩

/-- The positionless branch of `determine_position` yields the sentinel
`-2`. -/
theorem determine_position_positionless (t : ComponentTree)
    (cid pid : String) :
    t.determine_position cid pid true = -2 := rfl

/-- An id already present in the scope keeps its existing position. -/
theorem determine_position_existing (t : ComponentTree) (cid pid : String)
    (c : Component) (h : t.get_component cid = some c) :
    t.determine_position cid pid false = c.position := by
  simp [ComponentTree.determine_position, h]

/-- A fresh id with no positioned siblings is appended at position 0. -/
theorem determine_position_fresh_empty (t : ComponentTree) (cid pid : String)
    (h : t.get_component cid = none)
    (hsib : t.components.filter
      (fun c => c.parentId == pid && c.position != -2) = []) :
    t.determine_position cid pid false = 0 := by
  simp [ComponentTree.determine_position, h, hsib]

/-- Every member's position is bounded by the running maximum fold. -/
theorem le_foldr_position_max (l : List Component) (c : Component)
    (h : c ∈ l) :
    c.position ≤ l.foldr (fun d m => max d.position m) (-1) := by
  induction l with
  | nil => cases h
  | cons d l ih =>
    rcases List.mem_cons.mp h with rfl | h2
    · exact le_max_left _ _
    · exact le_trans (ih h2) (le_max_right _ _)

/-- A fresh id is appended strictly after every positioned sibling. -/
theorem determine_position_fresh_gt (t : ComponentTree) (cid pid : String)
    (h : t.get_component cid = none) (c : Component) (hc : c ∈ t.components)
    (hpar : c.parentId = pid) (hne : c.position ≠ -2) :
    c.position < t.determine_position cid pid false := by
  have hmem : c ∈ t.components.filter
      (fun d => d.parentId == pid && d.position != -2) := by
    refine List.mem_filter.mpr ⟨hc, ?_⟩
    simp [hpar, hne]
  have hle := le_foldr_position_max _ c hmem
  simp only [ComponentTree.determine_position, if_neg (by simp : ¬(false = true)), h]
  omega

/-- C4: with `position` unset, the stored position is computed by
`determine_position`: the sentinel `-2` when positionless; the existing
position when the id is already present; else one more than the
maximum position among the positioned siblings of the resolved parent
(0 when there are none), hence strictly greater than every positioned
sibling's position, so successive appends yield 0, 1, 2, ... -/
theorem position_determination (t : ComponentTree) (ctx : Option Component)
    (fresh ty : String) (args : CreateArgs)
    (hunset : stripNull args.position = Passed.unset) :
    ((_create_component t ctx fresh ty args).1.position =
      t.determine_position (_create_component t ctx fresh ty args).1.id
        (_create_component t ctx fresh ty args).1.parentId
        args.positionless) ∧
    (args.positionless = true →
      (_create_component t ctx fresh ty args).1.position = -2) ∧
    (args.positionless = false →
      ∀ c, t.get_component (_create_component t ctx fresh ty args).1.id =
          some c →
        (_create_component t ctx fresh ty args).1.position = c.position) ∧
    (args.positionless = false →
      t.get_component (_create_component t ctx fresh ty args).1.id = none →
      (t.components.filter (fun c =>
          c.parentId == (_create_component t ctx fresh ty args).1.parentId &&
          c.position != -2) = [] →
        (_create_component t ctx fresh ty args).1.position = 0) ∧
      (∀ c ∈ t.components,
        c.parentId = (_create_component t ctx fresh ty args).1.parentId →
        c.position ≠ -2 →
        c.position < (_create_component t ctx fresh ty args).1.position)) := by
  rcases args with ⟨aid, apos, apid, apl, ah, ab, aat⟩
  cases apos with
  | val p => simp [stripNull] at hunset
  | null =>
    have key : (_create_component t ctx fresh ty
        ⟨aid, Passed.null, apid, apl, ah, ab, aat⟩).1.position =
        t.determine_position
          (_create_component t ctx fresh ty
            ⟨aid, Passed.null, apid, apl, ah, ab, aat⟩).1.id
          (_create_component t ctx fresh ty
            ⟨aid, Passed.null, apid, apl, ah, ab, aat⟩).1.parentId apl := rfl
    refine ⟨key, ?_, ?_, ?_⟩
    · intro hl
      subst hl
      rw [key]
      exact determine_position_positionless _ _ _
    · intro hl c hc
      subst hl
      rw [key]
      exact determine_position_existing _ _ _ c hc
    · intro hl hn
      subst hl
      refine ⟨?_, ?_⟩
      · intro hfil
        rw [key]
        exact determine_position_fresh_empty _ _ _ hn hfil
      · intro c hc hpar hne
        rw [key]
        exact determine_position_fresh_gt _ _ _ hn c hc hpar hne
  | unset =>
    have key : (_create_component t ctx fresh ty
        ⟨aid, Passed.unset, apid, apl, ah, ab, aat⟩).1.position =
        t.determine_position
          (_create_component t ctx fresh ty
            ⟨aid, Passed.unset, apid, apl, ah, ab, aat⟩).1.id
          (_create_component t ctx fresh ty
            ⟨aid, Passed.unset, apid, apl, ah, ab, aat⟩).1.parentId apl := rfl
    refine ⟨key, ?_, ?_, ?_⟩
    · intro hl
      subst hl
      rw [key]
      exact determine_position_positionless _ _ _
    · intro hl c hc
      subst hl
      rw [key]
      exact determine_position_existing _ _ _ c hc
    · intro hl hn
      subst hl
      refine ⟨?_, ?_⟩
      · intro hfil
        rw [key]
        exact determine_position_fresh_empty _ _ _ hn hfil
      · intro c hc hpar hne
        rw [key]
        exact determine_position_fresh_gt _ _ _ hn c hc hpar hne

/-- C4 witness: in the tree with positioned children of `"root"` at 0
and 1 and a positionless child, a fresh unpositioned append under
`"root"` gets position 2, and a positionless creation gets `-2`. -/
theorem position_determination_witness :
    (_create_component posTree none "n2" "txt" {}).1.position = 2 ∧
    (_create_component posTree none "n3" "txt"
      { positionless := true }).1.position = -2 := by
  constructor
  · have h := (position_determination posTree none "n2" "txt" {} rfl).1
    rw [h]
    decide
  · exact (position_determination posTree none "n3" "txt"
      { positionless := true } rfl).2.1 rfl

/-- Filtering with a predicate implied by the search predicate does not
change the result of `find?`. -/
theorem find?_filter_of_imp {α : Type} (p q : α → Bool) (l : List α)
    (h : ∀ a, p a = true → q a = true) :
    (l.filter q).find? p = l.find? p := by
  induction l with
  | nil => rfl
  | cons a l ih =>
    cases hq : q a with
    | true =>
      cases hp : p a with
      | true => simp [List.filter_cons, hq, List.find?_cons, hp]
      | false => simp [List.filter_cons, hq, List.find?_cons, hp, ih]
    | false =>
      have hp : p a = false := by
        cases hpa : p a with
        | true => rw [h a hpa] at hq; cases hq
        | false => rfl
      simp [List.filter_cons, hq, List.find?_cons, hp, ih]

/-- A parent chain starting at the target trivially reaches it. -/
theorem chainReaches_self (comps : List Component) (n : Nat) (cid : String) :
    chainReaches comps (n + 1) cid cid = true := by
  simp [chainReaches]

/-- When no component of the list has `cid` as parent, a parent chain
reaches `cid` only from `cid` itself. -/
theorem chainReaches_cid_of_no_child (comps : List Component) (cid : String)
    (hno : ∀ d ∈ comps, ¬(d.parentId = cid)) :
    ∀ n x, chainReaches comps n x cid = true → x = cid := by
  intro n
  induction n with
  | zero =>
    intro x hx
    simp [chainReaches] at hx
  | succ n ih =>
    intro x hx
    by_cases hxc : x = cid
    · exact hxc
    · have hxb : (x == cid) = false := by simp [hxc]
      simp only [chainReaches, hxb, Bool.false_eq_true, if_false] at hx
      cases hfind : comps.find? (fun c => c.id == x) with
      | none => rw [hfind] at hx; cases hx
      | some d =>
        rw [hfind] at hx
        have hd : d ∈ comps := List.mem_of_find?_eq_some hfind
        exact absurd (ih d.parentId hx) (hno d hd)

/-- C3: for an id present in the effective tree, `refresh_with` returns
the component together with the tree with all of the component's
descendants removed: the component stays present with zero children and
the clearing is idempotent; for an absent id it fails with the
component-not-found error without clearing anything. -/
theorem refresh_with_spec (t : ComponentTree) (cid : String)
    (hwf : ∀ d ∈ t.components, d.parentId ≠ d.id) :
    (∀ c, t.get_component cid = some c →
      refresh_with t cid = .ok (c, t.clear_children cid) ∧
      (t.clear_children cid).children cid = [] ∧
      (t.clear_children cid).get_component cid = some c ∧
      (t.clear_children cid).clear_children cid = t.clear_children cid) ∧
    (t.get_component cid = none →
      refresh_with t cid = .error (UIError.componentNotFound cid)) := by
  constructor
  · intro c hc
    have hok : refresh_with t cid = .ok (c, t.clear_children cid) := by
      simp [refresh_with, find, hc]
    have hchild : (t.clear_children cid).children cid = [] := by
      apply List.filter_eq_nil_iff.mpr
      intro a ha hpar
      obtain ⟨hmem, hkeep⟩ := List.mem_filter.mp ha
      have hpc : a.parentId = cid := eq_of_beq hpar
      have hcr : chainReaches t.components (t.components.length + 1)
          a.parentId cid = true := by
        rw [hpc]
        exact chainReaches_self _ _ _
      rw [hcr] at hkeep
      simp at hkeep
      exact (hwf a hmem) (hpc.trans hkeep.symm)
    have hget : (t.clear_children cid).get_component cid = some c := by
      have heq := find?_filter_of_imp (fun d => d.id == cid)
        (fun d => d.id == cid ||
          !(chainReaches t.components (t.components.length + 1)
            d.parentId cid))
        t.components
        (by
          intro a hpa
          have hpa2 : (a.id == cid) = true := hpa
          show (a.id == cid ||
            !chainReaches t.components (t.components.length + 1)
              a.parentId cid) = true
          rw [hpa2]
          rfl)
      exact heq.trans hc
    have hnochild : ∀ d ∈ (t.clear_children cid).components,
        ¬(d.parentId = cid) := by
      intro d hd hdp
      have hdc : d ∈ (t.clear_children cid).children cid :=
        List.mem_filter.mpr ⟨hd, by simp [hdp]⟩
      rw [hchild] at hdc
      cases hdc
    have hall : List.filter (fun a => a.id == cid ||
        !(chainReaches (t.clear_children cid).components
          ((t.clear_children cid).components.length + 1) a.parentId cid))
        (t.clear_children cid).components =
        (t.clear_children cid).components := by
      apply List.filter_eq_self.mpr
      intro a ha
      by_cases haid : a.id = cid
      · simp [haid]
      · have hch : chainReaches (t.clear_children cid).components
            ((t.clear_children cid).components.length + 1)
            a.parentId cid = false := by
          cases hcr : chainReaches (t.clear_children cid).components
              ((t.clear_children cid).components.length + 1)
              a.parentId cid with
          | false => rfl
          | true =>
            exact absurd (chainReaches_cid_of_no_child _ cid hnochild _ _ hcr)
              (hnochild a ha)
        simp [hch]
    exact ⟨hok, hchild, hget, congrArg ComponentTree.mk hall⟩
  · intro hn
    simp [refresh_with, find, hn]

/-- C3 witness: refreshing `"a"`, which has the descendant chain `"b"`,
`"c"`, returns `compA`, leaves it present with zero children, and the
clearing is idempotent; refreshing a missing id fails. -/
theorem refresh_with_spec_witness :
    (refresh_with treeABC "a" = .ok (compA, treeABC.clear_children "a") ∧
      (treeABC.clear_children "a").children "a" = [] ∧
      (treeABC.clear_children "a").get_component "a" = some compA ∧
      (treeABC.clear_children "a").clear_children "a" =
        treeABC.clear_children "a") ∧
    refresh_with treeABC "zzz" =
      .error (UIError.componentNotFound "zzz") :=
  ⟨(refresh_with_spec treeABC "a" (by decide)).1 compA (by decide),
   (refresh_with_spec treeABC "zzz" (by decide)).2 (by decide)⟩

end Streamsync
